import Mathlib

/-!
Verification of the BigQuery incremental-collection connector
(`src/grove/connectors/google/bigquery_query.py`).

The development shallowly embeds the `Connector.collect` method: the
configuration validation block (lines 30-67), the pointer resolution block
(lines 81-125), the query construction (lines 131-149) and the paging loop
(lines 131-180).  Python strings are `String`, Python integers are `Int`,
the remote transport is a function from call index and query text to either
a row list or a failure, and the downstream sink is observed as the list of
`save` invocations.  Python builtins used by the source (`int`, `str.strip`,
`str.replace`, `datetime.strftime`) are modelled explicitly below.
-/

deriving instance DecidableEq for Except

namespace Grove

/-- Rows are opaque to the connector: `dict(row)` values are only collected,
counted and forwarded.  We use `Nat` as the row payload type. -/
abbrev Row := Nat

/-! ### Models of the Python builtins used by `collect` -/

/-- Whitespace recognised by Python `str.strip()` and `int()` (ASCII part). -/
def isPyWs (c : Char) : Bool :=
  c = ' ' || c = '\t' || c = '\n' || c = '\r' || c = '\x0b' || c = '\x0c'

/-- Drop leading and trailing Python whitespace from a char list. -/
def stripChars (l : List Char) : List Char :=
  ((l.dropWhile isPyWs).reverse.dropWhile isPyWs).reverse

/-- Model of Python `str.strip()`. -/
def pyStrip (s : String) : String :=
  ⟨stripChars s.data⟩

/-- Digit accumulator for the body of a Python integer literal: decimal
digits with single underscores allowed between digits. -/
def digitsToNat (acc : Nat) : List Char → Option Nat
  | [] => some acc
  | c :: cs =>
    if c.isDigit then digitsToNat (acc * 10 + (c.toNat - 48)) cs
    else if c = '_' then
      match cs with
      | [] => none
      | d :: cs' => if d.isDigit then digitsToNat (acc * 10 + (d.toNat - 48)) cs' else none
    else none

/-- Body of a Python integer literal: a non-empty digit string. -/
def pyIntCore : List Char → Option Nat
  | [] => none
  | c :: cs => if c.isDigit then digitsToNat (c.toNat - 48) cs else none

/-- Model of Python `int(s)` on strings: optional surrounding whitespace,
optional sign, then a non-empty digit string (single underscores allowed
between digits).  Returns `none` where CPython raises `ValueError`. -/
def pyInt (s : String) : Option Int :=
  match stripChars s.data with
  | '-' :: rest => (pyIntCore rest).map (fun n => -(n : Int))
  | '+' :: rest => (pyIntCore rest).map (fun n => (n : Int))
  | rest => (pyIntCore rest).map (fun n => (n : Int))

/-- One left-to-right, non-overlapping replacement pass over a char list,
as performed by Python `str.replace`. -/
def replaceChars (pat repl : List Char) : List Char → List Char
  | [] => []
  | c :: cs =>
    if pat ≠ [] ∧ pat.isPrefixOf (c :: cs) then
      repl ++ replaceChars pat repl ((c :: cs).drop pat.length)
    else
      c :: replaceChars pat repl cs
termination_by l => l.length
decreasing_by
  · simp only [List.length_drop]
    have hp : 0 < pat.length := List.length_pos.mpr (by tauto)
    simp only [List.length_cons]
    omega
  · simp

/-- Model of Python `s.replace(pat, repl)` for non-empty `pat`. -/
def pyReplace (s pat repl : String) : String :=
  ⟨replaceChars pat.data repl.data s.data⟩

/-- Seconds in seven days, and microseconds in seven days. -/
def sevenDaysUsec : Int := 7 * 86400 * 1000000

/-- Left-pad a natural number with zeros to two digits (strftime field). -/
def pad2 (n : Nat) : String :=
  if n < 10 then "0" ++ toString n else toString n

/-- Left-pad a natural number with zeros to four digits (strftime year). -/
def pad4 (n : Nat) : String :=
  if n < 10 then "000" ++ toString n
  else if n < 100 then "00" ++ toString n
  else if n < 1000 then "0" ++ toString n
  else toString n

/-- Civil date from a day count relative to 1970-01-01 (proleptic Gregorian
calendar, the algorithm used by CPython `datetime`). -/
def civilFromDays (z0 : Int) : Int × Nat × Nat :=
  let z := z0 + 719468
  let era := z.fdiv 146097
  let doe := (z - era * 146097).toNat
  let yoe := (doe - doe / 1460 + doe / 36524 - doe / 146096) / 365
  let y := (yoe : Int) + era * 400
  let doy := doe - (365 * yoe + yoe / 4 - yoe / 100)
  let mp := (5 * doy + 2) / 153
  let d := doy - (153 * mp + 2) / 5 + 1
  let m := if mp < 10 then mp + 3 else mp - 9
  (if m ≤ 2 then y + 1 else y, m, d)

/-- Model of the Python expression
`week_ago.strftime("%Y-%m-%d %H:%M:%S+00")`: format an epoch-second count
as a UTC civil timestamp with the `+00` offset shorthand. -/
def formatUtc (secs : Int) : String :=
  let days := secs.fdiv 86400
  let sod := (secs - days * 86400).toNat
  let ymd := civilFromDays days
  pad4 ymd.1.toNat ++ "-" ++ pad2 ymd.2.1 ++ "-" ++ pad2 ymd.2.2 ++ " " ++
    pad2 (sod / 3600) ++ ":" ++ pad2 (sod % 3600 / 60) ++ ":" ++ pad2 (sod % 60) ++ "+00"

/-! ### Configuration validation (source lines 30-67) -/

/-- Dynamically typed configuration attribute values, as far as the
validation block inspects them (`isinstance` checks against `str`, `int`,
`list`; truthiness; membership in a list of strings). -/
inductive PyVal
  | vStr (v : String)
  | vInt (v : Int)
  | vList (v : List String)
deriving DecidableEq

/-- Truthiness of a configuration attribute value (Python `bool(x)`). -/
def pyTruthy : PyVal → Bool
  | .vStr v => v ≠ ""
  | .vInt v => v ≠ 0
  | .vList v => v ≠ []

/-- Rendering of a configuration attribute value into an f-string
(Python `str(x)`). -/
def pyRender : PyVal → String
  | .vStr v => v
  | .vInt v => toString v
  | .vList v => "[" ++ String.intercalate ", " (v.map fun x => "\x27" ++ x ++ "\x27") ++ "]"

/-- Raw operator-supplied configuration: each attribute is either present
with a dynamically typed value or missing (`none` makes the corresponding
attribute access raise `AttributeError`; `max_batches` and `time_format`
are read with `getattr` defaults and never raise). -/
structure RawConfig where
  project_id : Option PyVal
  dataset_name : Option PyVal
  table_name : Option PyVal
  columns : Option PyVal
  max_batches : Option PyVal
  pointer_path : Option PyVal
  time_format : Option PyVal
deriving DecidableEq

/-- The distinct `ConfigurationException` sites of the validation block, in
source order of their checks. -/
inductive ConfigError
  | missingField
  | pointerPathUnset
  | badMaxBatches
  | notAString
  | columnsNotList
  | badTimeFormat
deriving DecidableEq

/-- Validated configuration as used by the rest of `collect`. -/
structure Configuration where
  project_id : String
  dataset_name : String
  table_name : String
  columns : List String
  max_batches : Int
  pointer_path : String
  time_format : String
deriving DecidableEq

/-- Embedding of the configuration block of `collect` (source lines
30-67): attribute reads (an absent required attribute surfaces as the
`Missing required configuration attribute` error), `getattr` defaults of
`3` for `max_batches` and `"microseconds"` for `time_format`, then the
checks in source order: `POINTER_PATH` truthy, `max_batches` a positive
`int`, the three name fields `str` instances, `columns` a `list`, and
`time_format` a member of `["microseconds", "timestamp"]`. -/
def validate (raw : RawConfig) : Except ConfigError Configuration :=
  match raw.project_id with
  | none => .error .missingField
  | some pid =>
  match raw.dataset_name with
  | none => .error .missingField
  | some dn =>
  match raw.table_name with
  | none => .error .missingField
  | some tn =>
  match raw.columns with
  | none => .error .missingField
  | some cols =>
  match raw.pointer_path with
  | none => .error .missingField
  | some pp =>
    let maxB := raw.max_batches.getD (.vInt 3)
    let tf := raw.time_format.getD (.vStr "microseconds")
    if ¬ pyTruthy pp then .error .pointerPathUnset
    else
      match maxB with
      | .vInt mb =>
        if mb ≤ 0 then .error .badMaxBatches
        else
          match pid with
          | .vStr pids =>
            match dn with
            | .vStr dns =>
              match tn with
              | .vStr tns =>
                match cols with
                | .vList colsl =>
                  if tf = .vStr "microseconds" ∨ tf = .vStr "timestamp" then
                    .ok ⟨pids, dns, tns, colsl, mb, pyRender pp,
                         if tf = .vStr "microseconds" then "microseconds" else "timestamp"⟩
                  else .error .badTimeFormat
                | _ => .error .columnsNotList
              | _ => .error .notAString
            | _ => .error .notAString
          | _ => .error .notAString
      | _ => .error .badMaxBatches

/-! ### Pointer resolution (source lines 81-125) -/

/-- Run-local native pointer state after the resolution block: in
`microseconds` mode both `pointer_epoch_usec` and the pointer string are
assigned; in `timestamp` mode only the pointer string feeds the query. -/
inductive Resolved
  | micro (usec : Int) (ptr : String)
  | ts (ptr : String)
deriving DecidableEq

/-- The pointer string assigned by the resolution block (the value of
`self.pointer` after source line 125). -/
def Resolved.ptrStr : Resolved → String
  | .micro _ p => p
  | .ts p => p

/-- Embedding of the `except` branch of the resolution block (source lines
111-125): the cold-start default window of `now - 7 days`, rendered as a
microsecond count or as a second-truncated `strftime` string depending on
`time_format`. -/
def coldStart (tf : String) (nowUsec : Int) : Resolved :=
  let weekAgo := nowUsec - sevenDaysUsec
  if tf = "microseconds" then .micro weekAgo (toString weekAgo)
  else .ts (formatUtc (weekAgo.fdiv 1000000))

/-- Embedding of the pointer resolution block (source lines 81-125).
`stored` is the persisted pointer (`none` models the store raising
`NotFoundException`); `isoOk` models success of
`datetime.fromisoformat` on its argument; `nowUsec` is the value of
`datetime.utcnow()` as epoch microseconds.  The format-validation guard
runs only when the stored pointer is truthy and strips non-empty; a
validation failure or a conversion `ValueError` is caught and falls back
to the cold-start default window. -/
def resolve (tf : String) (stored : Option String) (isoOk : String → Bool)
    (nowUsec : Int) : Resolved :=
  match stored with
  | none => coldStart tf nowUsec
  | some s =>
    let native :=
      if tf = "microseconds" then
        match pyInt s with
        | some n => Resolved.micro n (toString n)
        | none => coldStart tf nowUsec
      else Resolved.ts s
    if s ≠ "" ∧ pyStrip s ≠ "" then
      if tf = "microseconds" then
        if (pyInt s).isSome then native else coldStart tf nowUsec
      else
        if isoOk (pyReplace s "+00" "+00:00") then native else coldStart tf nowUsec
    else native

/-! ### Query construction (source lines 131-149) -/

/-- Embedding of the `where_clause` branch (source lines 132-140). -/
def whereClause (pp : String) (res : Resolved) : String :=
  match res with
  | .micro usec _ => pp ++ " > " ++ toString usec
  | .ts ptr => pp ++ " > TIMESTAMP(\x27" ++ ptr ++ "\x27)"

/-- Embedding of the query f-string (source lines 142-149), including its
exact newline and indentation layout. -/
def buildQuery (cfg : Configuration) (res : Resolved) : String :=
  "\n            SELECT " ++ String.intercalate ", " cfg.columns
  ++ "\n            FROM `" ++ cfg.project_id ++ "." ++ cfg.dataset_name ++ "." ++ cfg.table_name
  ++ "`\n            WHERE " ++ whereClause cfg.pointer_path res
  ++ "\n            AND " ++ cfg.pointer_path ++ " IS NOT NULL"
  ++ "\n            ORDER BY " ++ cfg.pointer_path ++ " ASC"
  ++ "\n            LIMIT 1000\n            "

/-- The query literal of the representation for the resolved pointer, in
the words of the specification: an integer literal for `Microseconds`, a
typed quoted literal for `Timestamp`. -/
def queryLit : Resolved → String
  | .micro usec _ => toString usec
  | .ts ptr => "TIMESTAMP(\x27" ++ ptr ++ "\x27)"

/-- The range-scan query shape in the words of the specification:
`SELECT <columns> FROM <project>.<dataset>.<table> WHERE <pointer_path> >
<bound> AND <pointer_path> IS NOT NULL ORDER BY <pointer_path> ASC LIMIT
<limit>` (the table reference is backtick-quoted). -/
def specQueryShape (cfg : Configuration) (bound : String) (limit : Nat) : String :=
  "SELECT " ++ String.intercalate ", " cfg.columns
  ++ " FROM `" ++ cfg.project_id ++ "." ++ cfg.dataset_name ++ "." ++ cfg.table_name
  ++ "` WHERE " ++ cfg.pointer_path ++ " > " ++ bound
  ++ " AND " ++ cfg.pointer_path ++ " IS NOT NULL ORDER BY " ++ cfg.pointer_path
  ++ " ASC LIMIT " ++ toString limit

/-! ### The paging loop (source lines 127-180) -/

/-- Observable outcome of the paging loop: number of `client.query` calls,
the query text passed to each, the `save` invocations in order, the final
in-memory `all_rows` accumulation, and whether the loop terminated by
raising `RequestFailedException`. -/
structure LoopOut where
  fetches : Nat
  queries : List String
  saves : List (List Row)
  acc : List Row
  failed : Bool
deriving DecidableEq

/-- Embedding of one `while True:` entry and everything after it (source
lines 131-180).  `i` is the number of previous `client.query` calls,
`allRows` and `batchCount` are the Python loop variables.  Each iteration
rebuilds the query (its inputs are loop invariants), executes it, breaks
without saving on an empty page, otherwise accumulates and either flushes
and breaks (batch budget reached or short page) or continues.  A transport
failure ends the run with `failed = true` and nothing saved. -/
def loopGo (exec : Nat → String → Except Unit (List Row)) (cfg : Configuration)
    (res : Resolved) (i : Nat) (allRows : List Row) (batchCount : Int) : LoopOut :=
  let q := buildQuery cfg res
  match exec i q with
  | .error _ => ⟨1, [q], [], allRows, true⟩
  | .ok rows =>
    if rows = [] then ⟨1, [q], [], allRows, false⟩
    else
      let allRows' := allRows ++ rows
      let batchCount' := batchCount + 1
      if batchCount' ≥ cfg.max_batches ∨ (rows.length : Int) < 1000 then
        ⟨1, [q], if allRows' = [] then [] else [allRows'], allRows', false⟩
      else
        let rest := loopGo exec cfg res (i + 1) allRows' batchCount'
        ⟨rest.fetches + 1, q :: rest.queries, rest.saves, rest.acc, rest.failed⟩
termination_by (cfg.max_batches - batchCount).toNat
decreasing_by
  rename_i hcont
  push_neg at hcont
  omega

/-- The paging loop from its initialisation (source lines 128-129). -/
def runLoop (exec : Nat → String → Except Unit (List Row)) (cfg : Configuration)
    (res : Resolved) : LoopOut :=
  loopGo exec cfg res 0 [] 0

/-- Observable outcome of one `collect` run that passed configuration
validation: the pointer value persisted by the resolution block and the
loop outcome. -/
structure RunResult where
  pointer : String
  loop : LoopOut
deriving DecidableEq

/-- Embedding of the whole `collect` method: validate the configuration,
resolve the pointer (writing it), then run the paging loop. -/
def collect (raw : RawConfig) (stored : Option String) (isoOk : String → Bool)
    (nowUsec : Int) (exec : Nat → String → Except Unit (List Row)) :
    Except ConfigError RunResult :=
  (validate raw).map fun cfg =>
    let res := resolve cfg.time_format stored isoOk nowUsec
    ⟨res.ptrStr, runLoop exec cfg res⟩

/-! ### Step lemmas for the paging loop -/

theorem loopGo_error {exec cfg res i acc bc}
    (h : exec i (buildQuery cfg res) = .error ()) :
    loopGo exec cfg res i acc bc = ⟨1, [buildQuery cfg res], [], acc, true⟩ := by
  rw [loopGo]
  simp [h]

theorem loopGo_empty {exec cfg res i acc bc}
    (h : exec i (buildQuery cfg res) = .ok []) :
    loopGo exec cfg res i acc bc = ⟨1, [buildQuery cfg res], [], acc, false⟩ := by
  rw [loopGo]
  simp [h]

theorem loopGo_flush {exec cfg res i acc bc rows}
    (h : exec i (buildQuery cfg res) = .ok rows) (hne : rows ≠ [])
    (hstop : bc + 1 ≥ cfg.max_batches ∨ (rows.length : Int) < 1000) :
    loopGo exec cfg res i acc bc =
      ⟨1, [buildQuery cfg res], [acc ++ rows], acc ++ rows, false⟩ := by
  rw [loopGo]
  have hne' : acc ++ rows ≠ [] := by simp [hne]
  simp only [h]
  rw [if_neg hne]
  split
  · simp [hne']
  · rename_i hcond
    exact absurd hstop hcond

theorem loopGo_cont {exec cfg res i acc bc rows}
    (h : exec i (buildQuery cfg res) = .ok rows) (hne : rows ≠ [])
    (hlt : bc + 1 < cfg.max_batches) (hfull : (rows.length : Int) ≥ 1000) :
    loopGo exec cfg res i acc bc =
      ⟨(loopGo exec cfg res (i + 1) (acc ++ rows) (bc + 1)).fetches + 1,
       buildQuery cfg res :: (loopGo exec cfg res (i + 1) (acc ++ rows) (bc + 1)).queries,
       (loopGo exec cfg res (i + 1) (acc ++ rows) (bc + 1)).saves,
       (loopGo exec cfg res (i + 1) (acc ++ rows) (bc + 1)).acc,
       (loopGo exec cfg res (i + 1) (acc ++ rows) (bc + 1)).failed⟩ := by
  rw [loopGo]
  simp only [h]
  rw [if_neg hne]
  split
  · rename_i hcond
    rcases hcond with h1 | h2
    · omega
    · omega
  · rfl

/-- Auxiliary bookkeeping: concatenation of the first `k` transport pages. -/
def flatPages (pages : Nat → List Row) : Nat → List Row
  | 0 => []
  | k + 1 => flatPages pages k ++ pages k

theorem flatPages_shift (pages : Nat → List Row) (k : Nat) :
    flatPages pages (k + 1) = pages 0 ++ flatPages (fun j => pages (j + 1)) k := by
  induction k with
  | zero => simp [flatPages]
  | succ k ih =>
    rw [show k + 1 + 1 = (k + 1) + 1 from rfl, flatPages, ih, flatPages, List.append_assoc]

theorem flatPages_length (pages : Nat → List Row) (k : Nat)
    (h : ∀ j < k, (pages j).length = 1000) : (flatPages pages k).length = k * 1000 := by
  induction k with
  | zero => simp [flatPages]
  | succ k ih =>
    rw [flatPages, List.length_append, ih (fun j hj => h j (Nat.lt_succ_of_lt hj)),
        h k (Nat.lt_succ_self k)]
    ring

/-- Unrolling lemma: `k` successful full pages, each leaving the batch
budget unexhausted, advance the loop to its state after `k` iterations,
prepending `k` fetches of the constant query text. -/
theorem loopGo_full_pages {exec cfg res} (k : Nat) (i : Nat) (acc : List Row) (bc : Int)
    (pages : Nat → List Row)
    (hpages : ∀ j < k, exec (i + j) (buildQuery cfg res) = .ok (pages j) ∧
      (pages j).length = 1000 ∧ bc + (j : Int) + 1 < cfg.max_batches) :
    loopGo exec cfg res i acc bc =
      ⟨(loopGo exec cfg res (i + k) (acc ++ flatPages pages k) (bc + k)).fetches + k,
       List.replicate k (buildQuery cfg res) ++
         (loopGo exec cfg res (i + k) (acc ++ flatPages pages k) (bc + k)).queries,
       (loopGo exec cfg res (i + k) (acc ++ flatPages pages k) (bc + k)).saves,
       (loopGo exec cfg res (i + k) (acc ++ flatPages pages k) (bc + k)).acc,
       (loopGo exec cfg res (i + k) (acc ++ flatPages pages k) (bc + k)).failed⟩ := by
  induction k generalizing i acc bc pages with
  | zero => simp [flatPages]
  | succ k ih =>
    obtain ⟨h0, hlen0, hbudget0⟩ := hpages 0 (Nat.succ_pos k)
    have hne0 : pages 0 ≠ [] := by
      intro hcon
      rw [hcon] at hlen0
      simp at hlen0
    rw [loopGo_cont (by simpa using h0) hne0 (by simpa using hbudget0)
      (by have := hlen0; omega)]
    rw [ih (i + 1) (acc ++ pages 0) (bc + 1) (fun j => pages (j + 1))
      (fun j hj => by
        obtain ⟨ha, hb, hc⟩ := hpages (j + 1) (by omega)
        refine ⟨by rw [show i + 1 + j = i + (j + 1) by omega]; exact ha, hb, ?_⟩
        push_cast at hc ⊢
        omega)]
    have hflat : acc ++ flatPages pages (k + 1) =
        (acc ++ pages 0) ++ flatPages (fun j => pages (j + 1)) k := by
      rw [flatPages_shift, List.append_assoc]
    have harr : i + (k + 1) = i + 1 + k := by omega
    have hbc : bc + ((k + 1 : Nat) : Int) = bc + 1 + (k : Int) := by push_cast; ring
    rw [hflat, harr, hbc]
    simp only [LoopOut.mk.injEq, List.replicate_succ, List.cons_append, and_true, true_and]
    omega

/-- Every iteration passes the same query text to the transport. -/
theorem loopGo_queries (exec : Nat → String → Except Unit (List Row)) (cfg : Configuration)
    (res : Resolved) (i : Nat) (acc : List Row) (bc : Int) :
    (loopGo exec cfg res i acc bc).queries =
      List.replicate (loopGo exec cfg res i acc bc).fetches (buildQuery cfg res) := by
  induction i, acc, bc using loopGo.induct exec cfg res with
  | case1 i acc bc q a heq =>
    cases a
    rw [loopGo_error heq]
    rfl
  | case2 i acc bc q heq =>
    rw [loopGo_empty heq]
    rfl
  | case3 i acc bc q rows heq hne bc' hstop =>
    rw [loopGo_flush heq hne hstop]
    rfl
  | case4 i acc bc q rows heq hne all' bc' hstop ih =>
    rw [loopGo_cont heq hne (by omega) (by omega)]
    simp [ih, List.replicate_succ]

/-- The loop performs at most `max 1 (max_batches - batch_count)` fetches:
the batch budget bounds the page count. -/
theorem loopGo_fetch_bound (exec : Nat → String → Except Unit (List Row))
    (cfg : Configuration) (res : Resolved) (i : Nat) (acc : List Row) (bc : Int) :
    (loopGo exec cfg res i acc bc).fetches ≤ max 1 (cfg.max_batches - bc).toNat := by
  induction i, acc, bc using loopGo.induct exec cfg res with
  | case1 i acc bc q a heq =>
    cases a
    rw [loopGo_error heq]
    simp
  | case2 i acc bc q heq =>
    rw [loopGo_empty heq]
    simp
  | case3 i acc bc q rows heq hne bc' hstop =>
    rw [loopGo_flush heq hne hstop]
    simp
  | case4 i acc bc q rows heq hne all' bc' hstop ih =>
    rw [loopGo_cont heq hne (by omega) (by omega)]
    have ih' : (loopGo exec cfg res (i + 1) (acc ++ rows) (bc + 1)).fetches ≤
        max 1 (cfg.max_batches - (bc + 1)).toNat := ih
    have hlt : bc + 1 < cfg.max_batches := by omega
    simp only []
    omega

/-- An aborted run never invoked the sink. -/
theorem loopGo_failed_saves (exec : Nat → String → Except Unit (List Row))
    (cfg : Configuration) (res : Resolved) (i : Nat) (acc : List Row) (bc : Int)
    (h : (loopGo exec cfg res i acc bc).failed = true) :
    (loopGo exec cfg res i acc bc).saves = [] := by
  induction i, acc, bc using loopGo.induct exec cfg res with
  | case1 i acc bc q a heq =>
    cases a
    rw [loopGo_error heq]
  | case2 i acc bc q heq => rw [loopGo_empty heq]
  | case3 i acc bc q rows heq hne bc' hstop =>
    rw [loopGo_flush heq hne hstop] at h
    simp at h
  | case4 i acc bc q rows heq hne all' bc' hstop ih =>
    rw [loopGo_cont heq hne (by omega) (by omega)] at h ⊢
    exact ih h

/-! ### Decimal round trip: `int(str(n)) == n` for natural `n` -/

/-- Structural-recursion form of the decimal digit expansion used by
`Nat.repr`. -/
def natDigits (n : Nat) : List Char :=
  if _h : n < 10 then [Nat.digitChar n]
  else natDigits (n / 10) ++ [Nat.digitChar (n % 10)]
termination_by n
decreasing_by
  exact Nat.div_lt_self (by omega) (by omega)

theorem toDigitsCore_append (f : Nat) : ∀ (n : Nat) (ds : List Char),
    Nat.toDigitsCore 10 f n ds = Nat.toDigitsCore 10 f n [] ++ ds := by
  induction f with
  | zero => intro n ds; rfl
  | succ f ih =>
    intro n ds
    rw [Nat.toDigitsCore, Nat.toDigitsCore]
    by_cases h10 : n / 10 = 0
    · simp [h10]
    · simp only [h10, if_false]
      rw [ih (n / 10) (Nat.digitChar (n % 10) :: ds), ih (n / 10) [Nat.digitChar (n % 10)],
        List.append_assoc]
      rfl

theorem toDigitsCore_eq_natDigits (f : Nat) : ∀ n : Nat, n < f →
    Nat.toDigitsCore 10 f n [] = natDigits n := by
  induction f with
  | zero => intro n hlt; omega
  | succ f ih =>
    intro n h
    rw [Nat.toDigitsCore]
    by_cases h10 : n / 10 = 0
    · have hlt : n < 10 := by omega
      rw [natDigits]
      simp [h10, hlt, Nat.mod_eq_of_lt hlt]
    · have hge : ¬ n < 10 := by
        intro hcon
        exact h10 (Nat.div_eq_of_lt hcon)
      simp only [h10, if_false]
      rw [toDigitsCore_append, ih (n / 10) (by omega)]
      conv_rhs => rw [natDigits]
      simp [hge]

theorem natRepr_data (n : Nat) : (Nat.repr n).data = natDigits n := by
  rw [Nat.repr, Nat.toDigits, toDigitsCore_eq_natDigits (n + 1) n (Nat.lt_succ_self n)]
  rfl

theorem digitChar_isDigit (k : Nat) (h : k < 10) : (Nat.digitChar k).isDigit = true := by
  interval_cases k <;> decide

theorem digitChar_val (k : Nat) (h : k < 10) : (Nat.digitChar k).toNat - 48 = k := by
  interval_cases k <;> decide

theorem natDigits_all_digits (n : Nat) : ∀ c ∈ natDigits n, c.isDigit = true := by
  induction n using natDigits.induct with
  | case1 n h =>
    rw [natDigits]
    simp only [dif_pos h, List.mem_singleton]
    intro c hc
    subst hc
    exact digitChar_isDigit n h
  | case2 n h ih =>
    rw [natDigits]
    simp only [dif_neg h, List.mem_append, List.mem_singleton]
    intro c hc
    rcases hc with hc | hc
    · exact ih c hc
    · subst hc
      exact digitChar_isDigit (n % 10) (Nat.mod_lt n (by omega))

/-- The digit-value accumulator step of the parser. -/
def digitStep (a : Nat) (c : Char) : Nat := a * 10 + (c.toNat - 48)

theorem digitsToNat_all_digits : ∀ (cs : List Char), (∀ c ∈ cs, c.isDigit = true) →
    ∀ acc, digitsToNat acc cs = some (cs.foldl digitStep acc)
  | [], _, acc => rfl
  | c :: cs, h, acc => by
    have hc : c.isDigit = true := h c (List.mem_cons_self c cs)
    rw [digitsToNat.eq_def]
    simp only [hc, if_true]
    rw [digitsToNat_all_digits cs (fun d hd => h d (List.mem_cons_of_mem c hd))]
    rfl

theorem natDigits_foldl (n : Nat) : ∀ acc : Nat,
    (natDigits n).foldl digitStep acc = acc * 10 ^ (natDigits n).length + n := by
  induction n using natDigits.induct with
  | case1 n h =>
    intro acc
    rw [natDigits]
    simp only [dif_pos h, List.foldl_cons, List.foldl_nil, List.length_singleton]
    rw [digitStep, digitChar_val n h]
    ring
  | case2 n h ih =>
    intro acc
    rw [natDigits]
    simp only [dif_neg h, List.foldl_append, List.length_append, List.foldl_cons,
      List.foldl_nil, List.length_singleton]
    rw [ih acc, digitStep, digitChar_val (n % 10) (Nat.mod_lt n (by omega))]
    generalize (natDigits (n / 10)).length = L
    rw [pow_succ]
    generalize (10 : Nat) ^ L = X
    have h1 : (acc * X + n / 10) * 10 + n % 10 = acc * (X * 10) + (n / 10 * 10 + n % 10) := by
      ring
    rw [h1, show n / 10 * 10 + n % 10 = n by omega]

theorem natDigits_ne_nil (n : Nat) : natDigits n ≠ [] := by
  rw [natDigits]
  by_cases h : n < 10 <;> simp [h]

theorem pyIntCore_natDigits (n : Nat) : pyIntCore (natDigits n) = some n := by
  cases hd : natDigits n with
  | nil => exact absurd hd (natDigits_ne_nil n)
  | cons c cs =>
    have hall : ∀ x ∈ natDigits n, x.isDigit = true := natDigits_all_digits n
    rw [hd] at hall
    have hc : c.isDigit = true := hall c (List.mem_cons_self c cs)
    rw [pyIntCore, if_pos hc,
      digitsToNat_all_digits cs (fun d hdm => hall d (List.mem_cons_of_mem c hdm))]
    have hfold : (natDigits n).foldl digitStep 0 = n := by
      rw [natDigits_foldl n 0]
      ring
    rw [hd, List.foldl_cons] at hfold
    have hstep : digitStep 0 c = c.toNat - 48 := by
      rw [digitStep]
      ring_nf
    rw [hstep] at hfold
    rw [hfold]

theorem dropWhile_of_none (p : Char → Bool) : ∀ l : List Char,
    (∀ c ∈ l, p c = false) → l.dropWhile p = l
  | [], _ => rfl
  | c :: cs, h => by
    rw [List.dropWhile_cons, h c (List.mem_cons_self c cs)]
    simp

theorem stripChars_of_none (l : List Char) (h : ∀ c ∈ l, isPyWs c = false) :
    stripChars l = l := by
  rw [stripChars, dropWhile_of_none isPyWs l h, dropWhile_of_none isPyWs l.reverse
    (fun c hc => h c (List.mem_reverse.mp hc)), List.reverse_reverse]

theorem digitChar_not_ws (k : Nat) (h : k < 10) : isPyWs (Nat.digitChar k) = false := by
  interval_cases k <;> decide

theorem natDigits_not_ws (n : Nat) : ∀ c ∈ natDigits n, isPyWs c = false := by
  induction n using natDigits.induct with
  | case1 n h =>
    rw [natDigits]
    simp only [dif_pos h, List.mem_singleton]
    intro c hc
    subst hc
    exact digitChar_not_ws n h
  | case2 n h ih =>
    rw [natDigits]
    simp only [dif_neg h, List.mem_append, List.mem_singleton]
    intro c hc
    rcases hc with hc | hc
    · exact ih c hc
    · subst hc
      exact digitChar_not_ws (n % 10) (Nat.mod_lt n (by omega))

theorem pyInt_natRepr (n : Nat) : pyInt (Nat.repr n) = some (n : Int) := by
  have hstrip : stripChars (Nat.repr n).data = natDigits n := by
    rw [natRepr_data]
    exact stripChars_of_none _ (natDigits_not_ws n)
  rw [pyInt, hstrip]
  cases hd : natDigits n with
  | nil => exact absurd hd (natDigits_ne_nil n)
  | cons c cs =>
    have hall : ∀ x ∈ natDigits n, x.isDigit = true := natDigits_all_digits n
    rw [hd] at hall
    have hc : c.isDigit = true := hall c (List.mem_cons_self c cs)
    have hcdash : c ≠ '-' := by
      intro hcon
      rw [hcon] at hc
      exact absurd hc (by decide)
    have hcplus : c ≠ '+' := by
      intro hcon
      rw [hcon] at hc
      exact absurd hc (by decide)
    have hcore : pyIntCore (c :: cs) = some n := by
      rw [← hd]
      exact pyIntCore_natDigits n
    split
    · rename_i rest hmatch
      exact absurd (List.head_eq_of_cons_eq hmatch.symm).symm hcdash
    · rename_i rest hmatch
      exact absurd (List.head_eq_of_cons_eq hmatch.symm).symm hcplus
    · rw [hcore]
      rfl

/-! ### Whitespace-insensitive comparison of query texts -/

/-- Normalise a char list by collapsing every whitespace run into a single
space and trimming both ends.  `seen` records whether a token char has been
emitted, `owe` whether a separating space is due before the next token
char. -/
def nrmGo (seen owe : Bool) : List Char → List Char
  | [] => []
  | c :: cs =>
    if isPyWs c then nrmGo seen seen cs
    else (if owe then [' ', c] else [c]) ++ nrmGo true false cs

/-- The `(seen, owe)` state of `nrmGo` after consuming a char list. -/
def stAfter (seen owe : Bool) : List Char → Bool × Bool
  | [] => (seen, owe)
  | c :: cs => if isPyWs c then stAfter seen seen cs else stAfter true false cs

/-- Whitespace-normal form of a string. -/
def normWs (s : String) : List Char :=
  nrmGo false false s.data

theorem nrmGo_append (a : List Char) : ∀ (b : List Char) (seen owe : Bool),
    nrmGo seen owe (a ++ b) =
      nrmGo seen owe a ++ nrmGo (stAfter seen owe a).1 (stAfter seen owe a).2 b := by
  induction a with
  | nil => intro b seen owe; rfl
  | cons c cs ih =>
    intro b seen owe
    rw [List.cons_append, nrmGo, nrmGo, stAfter]
    by_cases hws : isPyWs c
    · simp only [hws, if_true]
      exact ih b seen seen
    · simp only [hws, if_false, Bool.false_eq_true]
      rw [ih b true false, List.append_assoc]

theorem stAfter_append (a : List Char) : ∀ (b : List Char) (seen owe : Bool),
    stAfter seen owe (a ++ b) =
      stAfter (stAfter seen owe a).1 (stAfter seen owe a).2 b := by
  induction a with
  | nil => intro b seen owe; rfl
  | cons c cs ih =>
    intro b seen owe
    rw [List.cons_append, stAfter, stAfter]
    by_cases hws : isPyWs c
    · simp only [hws, if_true]
      exact ih b seen seen
    · simp only [hws, if_false, Bool.false_eq_true]
      exact ih b true false

/-- Two char lists are whitespace-equivalent when they normalise alike and
leave `nrmGo` in the same state, whatever the entry state. -/
abbrev EqNrm (a b : List Char) : Prop :=
  ∀ seen owe : Bool, nrmGo seen owe a = nrmGo seen owe b ∧
    stAfter seen owe a = stAfter seen owe b

theorem eqNrm_refl (a : List Char) : EqNrm a a :=
  fun _ _ => ⟨rfl, rfl⟩

theorem eqNrm_append {a b c d : List Char} (h1 : EqNrm a b) (h2 : EqNrm c d) :
    EqNrm (a ++ c) (b ++ d) := by
  intro seen owe
  obtain ⟨hn, hs⟩ := h1 seen owe
  obtain ⟨hn2, hs2⟩ := h2 (stAfter seen owe b).1 (stAfter seen owe b).2
  constructor
  · rw [nrmGo_append, nrmGo_append, hn, hs, hn2]
  · rw [stAfter_append, stAfter_append, hs, hs2]

/-- Variant of `eqNrm_append` that merges the two leading chunks of the
left-hand side first. -/
theorem eqNrm_append2L {a b c d e : List Char} (h1 : EqNrm (a ++ b) e) (h2 : EqNrm c d) :
    EqNrm (a ++ (b ++ c)) (e ++ d) := by
  rw [← List.append_assoc]
  exact eqNrm_append h1 h2

/-- Variant of `eqNrm_append` that merges the two leading chunks of the
right-hand side first. -/
theorem eqNrm_append2R {a b c d e : List Char} (h1 : EqNrm e (a ++ b)) (h2 : EqNrm c d) :
    EqNrm (e ++ c) (a ++ (b ++ d)) := by
  rw [← List.append_assoc]
  exact eqNrm_append h1 h2

theorem nrmGo_ws_cons (seen owe : Bool) (c : Char) (hc : isPyWs c = true)
    (l : List Char) : nrmGo seen owe (c :: l) = nrmGo seen seen l := by
  rw [nrmGo, if_pos hc]

/-- Weak whitespace equivalence: equal normal forms from every entry state
(the exit states may differ; adequate for trailing chunks). -/
abbrev EqNrmW (a b : List Char) : Prop :=
  ∀ seen owe : Bool, nrmGo seen owe a = nrmGo seen owe b

theorem eqNrmW_append {a b c d : List Char} (h1 : EqNrm a b) (h2 : EqNrmW c d) :
    EqNrmW (a ++ c) (b ++ d) := by
  intro seen owe
  obtain ⟨hn, hs⟩ := h1 seen owe
  rw [nrmGo_append, nrmGo_append, hn, hs, h2 (stAfter seen owe b).1 (stAfter seen owe b).2]

/-- Whitespace equivalence lifted to strings. -/
abbrev EqNrmS (s t : String) : Prop :=
  EqNrm s.data t.data

/-- Weak whitespace equivalence lifted to strings. -/
abbrev EqNrmWS (s t : String) : Prop :=
  EqNrmW s.data t.data

theorem eqNrmS_refl (s : String) : EqNrmS s s :=
  eqNrm_refl s.data

theorem eqNrmS_append {a b c d : String} (h1 : EqNrmS a b) (h2 : EqNrmS c d) :
    EqNrmS (a ++ c) (b ++ d) := by
  rw [EqNrmS, String.data_append, String.data_append]
  exact eqNrm_append h1 h2

/-- Variant of `eqNrmS_append` that merges the two leading chunks of the
left-hand side first. -/
theorem eqNrmS_append2L {a b c d e : String} (h1 : EqNrmS (a ++ b) e) (h2 : EqNrmS c d) :
    EqNrmS (a ++ (b ++ c)) (e ++ d) := by
  rw [← String.append_assoc]
  exact eqNrmS_append h1 h2

/-- Variant of `eqNrmS_append` that merges the two leading chunks of the
right-hand side first. -/
theorem eqNrmS_append2R {a b c d e : String} (h1 : EqNrmS e (a ++ b)) (h2 : EqNrmS c d) :
    EqNrmS (e ++ c) (a ++ (b ++ d)) := by
  rw [← String.append_assoc]
  exact eqNrmS_append h1 h2

theorem eqNrmWS_append {a b c d : String} (h1 : EqNrmS a b) (h2 : EqNrmWS c d) :
    EqNrmWS (a ++ c) (b ++ d) := by
  rw [EqNrmWS, String.data_append, String.data_append]
  exact eqNrmW_append h1 h2

theorem eqNrmWS_append2L {a b c d e : String} (h1 : EqNrmS (a ++ b) e) (h2 : EqNrmWS c d) :
    EqNrmWS (a ++ (b ++ c)) (e ++ d) := by
  rw [← String.append_assoc]
  exact eqNrmWS_append h1 h2

theorem eqNrmWS_append2R {a b c d e : String} (h1 : EqNrmS e (a ++ b)) (h2 : EqNrmWS c d) :
    EqNrmWS (e ++ c) (a ++ (b ++ d)) := by
  rw [← String.append_assoc]
  exact eqNrmWS_append h1 h2

/-- The built query equals the range-scan shape of the specification up to
whitespace layout, with the bound rendered by the representation and the
limit fixed at 1000. -/
theorem normWs_buildQuery (cfg : Configuration) (res : Resolved) :
    normWs (buildQuery cfg res) = normWs (specQueryShape cfg (queryLit res) 1000) := by
  suffices h : EqNrmWS (buildQuery cfg res)
      ("\n" ++ specQueryShape cfg (queryLit res) 1000) by
    have h2 := h false false
    rw [normWs, normWs, h2, String.data_append,
      show ("\n" : String).data = ['\n'] from rfl, List.singleton_append]
    exact nrmGo_ws_cons false false '\n' (by decide) _
  cases res with
  | micro u p =>
    simp only [buildQuery, specQueryShape, whereClause, queryLit, String.append_assoc]
    refine eqNrmWS_append2R (by decide) ?_
    refine eqNrmWS_append (eqNrmS_refl _) ?_
    refine eqNrmWS_append (by decide) ?_
    refine eqNrmWS_append (eqNrmS_refl _) ?_
    refine eqNrmWS_append (eqNrmS_refl _) ?_
    refine eqNrmWS_append (eqNrmS_refl _) ?_
    refine eqNrmWS_append (eqNrmS_refl _) ?_
    refine eqNrmWS_append (eqNrmS_refl _) ?_
    refine eqNrmWS_append (by decide) ?_
    refine eqNrmWS_append (eqNrmS_refl _) ?_
    refine eqNrmWS_append (eqNrmS_refl _) ?_
    refine eqNrmWS_append (eqNrmS_refl _) ?_
    refine eqNrmWS_append (by decide) ?_
    refine eqNrmWS_append (eqNrmS_refl _) ?_
    refine eqNrmWS_append2L (by decide) ?_
    refine eqNrmWS_append (eqNrmS_refl _) ?_
    exact (by decide)
  | ts p =>
    simp only [buildQuery, specQueryShape, whereClause, queryLit, String.append_assoc]
    refine eqNrmWS_append2R (by decide) ?_
    refine eqNrmWS_append (eqNrmS_refl _) ?_
    refine eqNrmWS_append (by decide) ?_
    refine eqNrmWS_append (eqNrmS_refl _) ?_
    refine eqNrmWS_append (eqNrmS_refl _) ?_
    refine eqNrmWS_append (eqNrmS_refl _) ?_
    refine eqNrmWS_append (eqNrmS_refl _) ?_
    refine eqNrmWS_append (eqNrmS_refl _) ?_
    refine eqNrmWS_append (by decide) ?_
    refine eqNrmWS_append (eqNrmS_refl _) ?_
    refine eqNrmWS_append2R (by decide) ?_
    refine eqNrmWS_append (eqNrmS_refl _) ?_
    refine eqNrmWS_append (eqNrmS_refl _) ?_
    refine eqNrmWS_append (by decide) ?_
    refine eqNrmWS_append (eqNrmS_refl _) ?_
    refine eqNrmWS_append2L (by decide) ?_
    refine eqNrmWS_append (eqNrmS_refl _) ?_
    exact (by decide)


/-! ### Resolution characterisation lemmas -/

theorem resolve_none (tf : String) (isoOk : String → Bool) (now : Int) :
    resolve tf none isoOk now = coldStart tf now := rfl

theorem resolve_micro_parse (s : String) (n : Int) (isoOk : String → Bool) (now : Int)
    (h : pyInt s = some n) :
    resolve "microseconds" (some s) isoOk now = .micro n (toString n) := by
  by_cases hb : s ≠ "" ∧ pyStrip s ≠ "" <;> simp [resolve, h, hb]

theorem resolve_micro_fail (s : String) (isoOk : String → Bool) (now : Int)
    (h : pyInt s = none) :
    resolve "microseconds" (some s) isoOk now = coldStart "microseconds" now := by
  by_cases hb : s ≠ "" ∧ pyStrip s ≠ "" <;> simp [resolve, h, hb]

theorem resolve_ts_blank (s : String) (isoOk : String → Bool) (now : Int)
    (h : pyStrip s = "") :
    resolve "timestamp" (some s) isoOk now = .ts s := by
  simp [resolve, h]

theorem resolve_ts_ok (s : String) (isoOk : String → Bool) (now : Int)
    (h : isoOk (pyReplace s "+00" "+00:00") = true) :
    resolve "timestamp" (some s) isoOk now = .ts s := by
  by_cases hb : s ≠ "" ∧ pyStrip s ≠ "" <;> simp [resolve, h, hb]

theorem resolve_ts_bad (s : String) (isoOk : String → Bool) (now : Int)
    (hs : pyStrip s ≠ "")
    (h : isoOk (pyReplace s "+00" "+00:00") = false) :
    resolve "timestamp" (some s) isoOk now = coldStart "timestamp" now := by
  have hne : s ≠ "" := by
    intro hcon
    subst hcon
    exact hs rfl
  simp [resolve, h, hne, hs]

theorem coldStart_micro (now : Int) :
    coldStart "microseconds" now =
      .micro (now - sevenDaysUsec) (toString (now - sevenDaysUsec)) := rfl

theorem coldStart_ts (now : Int) :
    coldStart "timestamp" now = .ts (formatUtc ((now - sevenDaysUsec).fdiv 1000000)) := rfl


/-! ### Claim theorems: pointer resolution -/

/-- C2 counterexample: under the Timestamp representation a blank stored
pointer (here a single space) is NOT treated as cold start: resolution
preserves it verbatim, and the result differs from the cold-start value
`now - 7 days` that the claim requires. -/
theorem c2_blank_timestamp_counterexample :
    resolve "timestamp" (some " ") (fun _ => false) 1700000000000000 = .ts " " ∧
    coldStart "timestamp" 1700000000000000 ≠ .ts " " := by
  decide

/-- C2 as amended: an absent pointer cold-starts under both
representations, a stored pointer that fails `int` parsing (including a
blank one) cold-starts under Microseconds, and a non-blank stored pointer
that fails `fromisoformat` cold-starts under Timestamp — but a blank
stored pointer under Timestamp is preserved verbatim instead of
cold-starting.  The cold-start value is `now - 7 days`, as a microsecond
count or as a second-truncated formatted string. -/
theorem c2_amended :
    (∀ (tf : String) (isoOk : String → Bool) (now : Int),
      resolve tf none isoOk now = coldStart tf now) ∧
    (∀ (s : String) (isoOk : String → Bool) (now : Int), pyInt s = none →
      resolve "microseconds" (some s) isoOk now = coldStart "microseconds" now) ∧
    (∀ (s : String) (isoOk : String → Bool) (now : Int), pyStrip s ≠ "" →
      isoOk (pyReplace s "+00" "+00:00") = false →
      resolve "timestamp" (some s) isoOk now = coldStart "timestamp" now) ∧
    (∀ (s : String) (isoOk : String → Bool) (now : Int), pyStrip s = "" →
      resolve "timestamp" (some s) isoOk now = Resolved.ts s) ∧
    (∀ now : Int, coldStart "microseconds" now =
      .micro (now - sevenDaysUsec) (toString (now - sevenDaysUsec))) ∧
    (∀ now : Int, coldStart "timestamp" now =
      .ts (formatUtc ((now - sevenDaysUsec).fdiv 1000000))) :=
  ⟨resolve_none, resolve_micro_fail, resolve_ts_bad, resolve_ts_blank,
   coldStart_micro, coldStart_ts⟩

theorem c2_amended_witness :
    resolve "microseconds" (some "junk") (fun _ => false) 0 =
      coldStart "microseconds" 0 ∧
    resolve "timestamp" (some "junk") (fun _ => false) 0 =
      coldStart "timestamp" 0 ∧
    resolve "timestamp" (some "") (fun _ => false) 0 = Resolved.ts "" :=
  ⟨c2_amended.2.1 "junk" (fun _ => false) 0 (by decide),
   c2_amended.2.2.1 "junk" (fun _ => false) 0 (by decide) (by decide),
   c2_amended.2.2.2.1 "" (fun _ => false) 0 (by decide)⟩

/-- C6: warm-start round trip.  Under Microseconds, resolving the stored
pointer `str(n)` for a natural `n` yields native pointer `n` and
re-persists exactly `str(n)`; under Timestamp, any stored string accepted
by `fromisoformat` after the `+00` shorthand rewrite is preserved
verbatim as the pointer value available for re-persistence. -/
theorem c6_roundtrip :
    (∀ (n : Nat) (isoOk : String → Bool) (now : Int),
      resolve "microseconds" (some (toString n)) isoOk now = .micro n (toString n)) ∧
    (∀ (s : String) (isoOk : String → Bool) (now : Int),
      isoOk (pyReplace s "+00" "+00:00") = true →
      resolve "timestamp" (some s) isoOk now = .ts s) := by
  constructor
  · intro n isoOk now
    rw [resolve_micro_parse (toString n) (n : Int) isoOk now (pyInt_natRepr n)]
    rfl
  · intro s isoOk now h
    exact resolve_ts_ok s isoOk now h

theorem c6_roundtrip_witness :
    resolve "microseconds" (some (toString 42)) (fun _ => false) 0 =
      .micro 42 (toString 42) ∧
    resolve "timestamp" (some "2024-01-02 03:04:05+00") (fun _ => true) 0 =
      .ts "2024-01-02 03:04:05+00" :=
  ⟨c6_roundtrip.1 42 (fun _ => false) 0,
   c6_roundtrip.2 "2024-01-02 03:04:05+00" (fun _ => true) 0 (by decide)⟩

/-- C8 counterexample: the stored pointer `"-1"` denotes a negative
integer, yet Microseconds resolution accepts it as a warm start with
native pointer `-1` instead of treating it as absent (cold start). -/
theorem c8_negative_pointer_counterexample :
    resolve "microseconds" (some "-1") (fun _ => false) 0 = .micro (-1) "-1" ∧
    resolve "microseconds" (some "-1") (fun _ => false) 0 ≠
      coldStart "microseconds" 0 := by
  decide

/-- C8 as amended: under Microseconds, resolution accepts as warm start
exactly the stored strings that parse as Python integers — including
negative ones such as `"-1"` — and cold-starts exactly when parsing
fails; no non-negativity constraint is enforced. -/
theorem c8_amended :
    (∀ (s : String) (n : Int) (isoOk : String → Bool) (now : Int), pyInt s = some n →
      resolve "microseconds" (some s) isoOk now = .micro n (toString n)) ∧
    (∀ (s : String) (isoOk : String → Bool) (now : Int), pyInt s = none →
      resolve "microseconds" (some s) isoOk now = coldStart "microseconds" now) ∧
    pyInt "-1" = some (-1) :=
  ⟨resolve_micro_parse, resolve_micro_fail, by decide⟩

theorem c8_amended_witness :
    resolve "microseconds" (some "-1") (fun _ => true) 5 =
      .micro (-1) (toString (-1 : Int)) :=
  c8_amended.1 "-1" (-1) (fun _ => true) 5 (by decide)

/-- C10: the pointer is written by the resolution block, before any query
executes: for every validated configuration the final pointer equals the
resolve-time value, whatever the transport does, so the pointer write is
conditioned neither on rows being collected nor on the run completing. -/
theorem c10_pointer_written_at_resolve :
    ∀ (raw : RawConfig) (stored : Option String) (isoOk : String → Bool) (now : Int)
      (exec exec' : Nat → String → Except Unit (List Row)) (cfg : Configuration),
      validate raw = .ok cfg →
      (collect raw stored isoOk now exec).map RunResult.pointer =
        .ok (resolve cfg.time_format stored isoOk now).ptrStr ∧
      (collect raw stored isoOk now exec).map RunResult.pointer =
        (collect raw stored isoOk now exec').map RunResult.pointer := by
  intro raw stored isoOk now exec exec' cfg hval
  rw [collect, collect, hval]
  exact ⟨rfl, rfl⟩

theorem c10_pointer_witness :
    (collect ⟨some (.vStr "p"), some (.vStr "d"), some (.vStr "t"),
        some (.vList ["a"]), none, some (.vStr "ts"), none⟩
      (some "7") (fun _ => false) 0 (fun _ _ => .ok [])).map RunResult.pointer =
      .ok (resolve "microseconds" (some "7") (fun _ => false) 0).ptrStr :=
  (c10_pointer_written_at_resolve
    ⟨some (.vStr "p"), some (.vStr "d"), some (.vStr "t"),
        some (.vList ["a"]), none, some (.vStr "ts"), none⟩
    (some "7") (fun _ => false) 0 (fun _ _ => .ok []) (fun _ _ => .ok [])
    ⟨"p", "d", "t", ["a"], 3, "ts", "microseconds"⟩ (by decide)).1


/-! ### Claim theorems: query shape and the paging loop -/

/-- Concrete raw-configuration fixture for witnesses: all required fields
present and well typed, defaults for `max_batches` and `time_format`. -/
def rawFix : RawConfig :=
  ⟨some (.vStr "p"), some (.vStr "d"), some (.vStr "t"),
   some (.vList ["a"]), none, some (.vStr "ts"), none⟩

/-- The validated form of `rawFix`. -/
def cfgFix : Configuration :=
  ⟨"p", "d", "t", ["a"], 3, "ts", "microseconds"⟩

/-- C7: every query text passed to the transport during a run is the one
built from the resolved pointer, and it has the range-scan shape of the
specification — strict `>` against the representation literal of the
resolved pointer, the NOT-NULL filter, ascending order, and the fixed
limit 1000 — up to whitespace layout. -/
theorem c7_query_shape :
    ∀ (exec : Nat → String → Except Unit (List Row)) (cfg : Configuration)
      (res : Resolved) (q : String),
      q ∈ (runLoop exec cfg res).queries →
      q = buildQuery cfg res ∧
      normWs q = normWs (specQueryShape cfg (queryLit res) 1000) := by
  intro exec cfg res q hq
  rw [runLoop, loopGo_queries exec cfg res 0 [] 0] at hq
  have hqe : q = buildQuery cfg res := List.eq_of_mem_replicate hq
  subst hqe
  exact ⟨rfl, normWs_buildQuery cfg res⟩

theorem c7_query_shape_witness :
    buildQuery cfgFix (.micro 5 "5") = buildQuery cfgFix (.micro 5 "5") ∧
    normWs (buildQuery cfgFix (.micro 5 "5")) =
      normWs (specQueryShape cfgFix (queryLit (.micro 5 "5")) 1000) :=
  c7_query_shape (fun _ _ => .ok []) cfgFix (.micro 5 "5")
    (buildQuery cfgFix (.micro 5 "5"))
    (by rw [runLoop, loopGo_empty rfl]; exact List.mem_singleton_self _)

/-- C5: the paging loop respects the batch budget — at most `max_batches`
fetches; a source answering `max_batches` full pages of 1000 rows yields
exactly `max_batches` fetches and a single flush of `max_batches * 1000`
records; a first page of one row yields exactly one fetch flushing that
single row, whatever `max_batches` is. -/
theorem c5_pagination_termination :
    ∀ (exec : Nat → String → Except Unit (List Row)) (cfg : Configuration)
      (res : Resolved),
      (1 ≤ cfg.max_batches → (runLoop exec cfg res).fetches ≤ cfg.max_batches.toNat) ∧
      (∀ pages : Nat → List Row, 1 ≤ cfg.max_batches →
        (∀ j < cfg.max_batches.toNat,
          exec j (buildQuery cfg res) = .ok (pages j) ∧ (pages j).length = 1000) →
        (runLoop exec cfg res).fetches = cfg.max_batches.toNat ∧
        (runLoop exec cfg res).saves.map List.length = [cfg.max_batches.toNat * 1000] ∧
        (runLoop exec cfg res).failed = false) ∧
      (∀ rows : List Row, exec 0 (buildQuery cfg res) = .ok rows → rows.length = 1 →
        (runLoop exec cfg res).fetches = 1 ∧ (runLoop exec cfg res).saves = [rows]) := by
  intro exec cfg res
  refine ⟨?_, ?_, ?_⟩
  · intro h1
    have hb := loopGo_fetch_bound exec cfg res 0 [] 0
    rw [runLoop]
    omega
  · intro pages h1 hp
    have hk : cfg.max_batches.toNat = (cfg.max_batches.toNat - 1) + 1 := by omega
    rw [runLoop, loopGo_full_pages (cfg.max_batches.toNat - 1) 0 [] 0 pages
      (fun j hj => ⟨by simpa using (hp j (by omega)).1, (hp j (by omega)).2, by
        omega⟩)]
    have hlast := hp (cfg.max_batches.toNat - 1) (by omega)
    have hne : pages (cfg.max_batches.toNat - 1) ≠ [] := by
      intro hcon
      have := hlast.2
      rw [hcon] at this
      simp at this
    rw [loopGo_flush (by simpa using hlast.1) hne (by omega)]
    refine ⟨by simp; omega, ?_, rfl⟩
    have hflat := flatPages_length pages (cfg.max_batches.toNat - 1)
      (fun j hj => (hp j (by omega)).2)
    simp [hflat, hlast.2]
    omega
  · intro rows h0 hlen
    have hne : rows ≠ [] := by
      intro hcon
      rw [hcon] at hlen
      simp at hlen
    rw [runLoop, loopGo_flush h0 hne (by omega)]
    exact ⟨rfl, by simp⟩

theorem c5_pagination_witness :
    ((runLoop (fun _ _ => .ok (List.replicate 1000 7)) cfgFix (.micro 5 "5")).fetches = 3 ∧
     (runLoop (fun _ _ => .ok (List.replicate 1000 7)) cfgFix (.micro 5 "5")).saves.map
       List.length = [3000] ∧
     (runLoop (fun _ _ => .ok (List.replicate 1000 7)) cfgFix (.micro 5 "5")).failed = false) ∧
    ((runLoop (fun _ _ => .ok [9]) cfgFix (.micro 5 "5")).fetches = 1 ∧
     (runLoop (fun _ _ => .ok [9]) cfgFix (.micro 5 "5")).saves = [[9]]) :=
  ⟨(c5_pagination_termination (fun _ _ => .ok (List.replicate 1000 7)) cfgFix
      (.micro 5 "5")).2.1 (fun _ => List.replicate 1000 7) (by decide)
      (fun j hj => ⟨rfl, List.length_replicate 1000 7⟩),
   (c5_pagination_termination (fun _ _ => .ok [9]) cfgFix (.micro 5 "5")).2.2 [9] rfl rfl⟩


/-- C9: the query lower bound never changes within a run — every fetch is
passed the identical query text — and consequently, for a transport that
is a deterministic function of the query text, every page equals the
first: a run whose first page is full accumulates `max_batches` copies of
that same page and saves them all to the sink. -/
theorem c9_constant_query_duplicates :
    ∀ (exec : Nat → String → Except Unit (List Row)) (cfg : Configuration)
      (res : Resolved),
      (runLoop exec cfg res).queries =
        List.replicate (runLoop exec cfg res).fetches (buildQuery cfg res) ∧
      (∀ page : List Row, (∀ i j q', exec i q' = exec j q') →
        exec 0 (buildQuery cfg res) = .ok page → page.length = 1000 →
        1 ≤ cfg.max_batches →
        (runLoop exec cfg res).saves =
          [flatPages (fun _ => page) cfg.max_batches.toNat]) := by
  intro exec cfg res
  constructor
  · exact loopGo_queries exec cfg res 0 [] 0
  · intro page hdet h0 hlen h1
    have hall : ∀ j : Nat, exec j (buildQuery cfg res) = .ok page :=
      fun j => (hdet j 0 (buildQuery cfg res)).trans h0
    have hne : page ≠ [] := by
      intro hcon
      rw [hcon] at hlen
      simp at hlen
    have hk : cfg.max_batches.toNat = (cfg.max_batches.toNat - 1) + 1 := by omega
    rw [runLoop, loopGo_full_pages (cfg.max_batches.toNat - 1) 0 [] 0 (fun _ => page)
      (fun j hj => ⟨hall (0 + j), hlen, by omega⟩)]
    rw [loopGo_flush (hall (0 + (cfg.max_batches.toNat - 1))) hne (by omega)]
    rw [hk, flatPages]
    simp

theorem c9_constant_query_witness :
    (runLoop (fun _ _ => .ok (List.replicate 1000 7)) cfgFix (.micro 5 "5")).saves =
      [flatPages (fun _ => List.replicate 1000 7) 3] :=
  (c9_constant_query_duplicates (fun _ _ => .ok (List.replicate 1000 7)) cfgFix
    (.micro 5 "5")).2 (List.replicate 1000 7) (fun _ _ _ => rfl) rfl
    (List.length_replicate 1000 7) (by decide)

/-- C1 counterexample: a run that accumulates one full page of 1000 rows
and then receives an empty page terminates normally (no abort) with the
1000 rows still accumulated, yet the sink is never invoked — `save` is
skipped although `accumulated_rows` is non-empty at loop termination. -/
theorem c1_empty_page_skips_save_counterexample :
    (collect rawFix (some "0") (fun _ => false) 0
        (fun i _ => if i = 0 then .ok (List.replicate 1000 0) else .ok [])).map
      (fun r => (r.loop.saves, r.loop.acc.length, r.loop.failed)) =
    .ok ([], 1000, false) := by
  have hstep : collect rawFix (some "0") (fun _ => false) 0
      (fun i _ => if i = 0 then .ok (List.replicate 1000 0) else .ok []) =
      .ok ⟨"0", runLoop (fun i _ => if i = 0 then .ok (List.replicate 1000 0) else .ok [])
        cfgFix (Resolved.micro 0 "0")⟩ := rfl
  have hne : List.replicate 1000 (0 : Row) ≠ [] := by
    intro hcon
    have hlen := List.length_replicate 1000 (0 : Row)
    rw [hcon] at hlen
    simp at hlen
  have hfull : ((List.replicate 1000 (0 : Row)).length : Int) ≥ 1000 := by
    rw [List.length_replicate]
    omega
  rw [hstep, runLoop, loopGo_cont rfl hne (by decide) hfull, loopGo_empty rfl]
  simp only [Except.map, List.nil_append, List.length_replicate]

/-- C1 as amended: when a page fetch returns zero rows the loop ends
immediately WITHOUT invoking the sink, even after `k` previously
accumulated full pages; the accumulated rows are simply dropped.  The
sink is invoked only when termination is triggered by the batch budget or
by a short non-empty page. -/
theorem c1_amended_empty_page_skips_save :
    ∀ (exec : Nat → String → Except Unit (List Row)) (cfg : Configuration)
      (res : Resolved) (k : Nat) (pages : Nat → List Row),
      (∀ j < k, exec j (buildQuery cfg res) = .ok (pages j) ∧
        (pages j).length = 1000 ∧ ((j : Int) + 1 < cfg.max_batches)) →
      exec k (buildQuery cfg res) = .ok [] →
      runLoop exec cfg res =
        ⟨k + 1, List.replicate (k + 1) (buildQuery cfg res), [],
         flatPages pages k, false⟩ := by
  intro exec cfg res k pages hp hk
  rw [runLoop, loopGo_full_pages k 0 [] 0 pages
    (fun j hj => ⟨by simpa using (hp j hj).1, (hp j hj).2.1, by
      have := (hp j hj).2.2
      omega⟩)]
  rw [loopGo_empty (by simpa using hk)]
  simp [List.replicate_succ', Nat.add_comm]

theorem c1_amended_witness :
    runLoop (fun i _ => if i = 0 then .ok (List.replicate 1000 0) else .ok [])
      cfgFix (.micro 0 "0") =
      ⟨2, List.replicate 2 (buildQuery cfgFix (.micro 0 "0")), [],
       flatPages (fun _ => List.replicate 1000 0) 1, false⟩ :=
  c1_amended_empty_page_skips_save
    (fun i _ => if i = 0 then .ok (List.replicate 1000 0) else .ok [])
    cfgFix (.micro 0 "0") 1 (fun _ => List.replicate 1000 0)
    (fun j hj => by
      have hj0 : j = 0 := by omega
      subst hj0
      exact ⟨rfl, List.length_replicate 1000 0, by decide⟩)
    rfl


/-- C3 counterexample: on a run whose first query fails, the error is
surfaced and nothing is saved, but the persisted pointer is NOT unchanged
from its pre-run value: resolution had already overwritten the malformed
stored pointer `"garbage"` with the cold-start default window before the
query executed. -/
theorem c3_abort_pointer_counterexample :
    (collect rawFix (some "garbage") (fun _ => false) 1700000000000000
        (fun _ _ => .error ())).map
      (fun r => (r.pointer, r.loop.saves, r.loop.failed)) =
      .ok ("1699395200000000", [], true) ∧
    ("1699395200000000" : String) ≠ "garbage" := by
  constructor
  · have hstep : collect rawFix (some "garbage") (fun _ => false) 1700000000000000
        (fun _ _ => .error ()) =
        .ok ⟨"1699395200000000", runLoop (fun _ _ => .error ()) cfgFix
          (Resolved.micro 1699395200000000 "1699395200000000")⟩ := rfl
    rw [hstep, runLoop, loopGo_error rfl]
    rfl
  · decide

/-- C3 as amended: a query failure at page `k + 1` (after `k` successful
full pages) raises `RequestFailedError`, never invokes the sink, discards
the partially accumulated rows, and leaves the pointer at the value
assigned by resolution — which may differ from the pre-run stored
value. -/
theorem c3_amended_abort_discards :
    ∀ (raw : RawConfig) (stored : Option String) (isoOk : String → Bool) (now : Int)
      (exec : Nat → String → Except Unit (List Row)) (cfg : Configuration)
      (k : Nat) (pages : Nat → List Row),
      validate raw = .ok cfg →
      (∀ j < k, exec j (buildQuery cfg (resolve cfg.time_format stored isoOk now)) =
          .ok (pages j) ∧ (pages j).length = 1000 ∧
          ((j : Int) + 1 < cfg.max_batches)) →
      exec k (buildQuery cfg (resolve cfg.time_format stored isoOk now)) = .error () →
      collect raw stored isoOk now exec =
        .ok ⟨(resolve cfg.time_format stored isoOk now).ptrStr,
             ⟨k + 1,
              List.replicate (k + 1)
                (buildQuery cfg (resolve cfg.time_format stored isoOk now)),
              [], flatPages pages k, true⟩⟩ := by
  intro raw stored isoOk now exec cfg k pages hval hp herr
  have hloop : runLoop exec cfg (resolve cfg.time_format stored isoOk now) =
      ⟨k + 1,
       List.replicate (k + 1) (buildQuery cfg (resolve cfg.time_format stored isoOk now)),
       [], flatPages pages k, true⟩ := by
    rw [runLoop, loopGo_full_pages k 0 [] 0 pages
      (fun j hj => ⟨by simpa using (hp j hj).1, (hp j hj).2.1, by
        have := (hp j hj).2.2
        omega⟩)]
    rw [loopGo_error (by simpa using herr)]
    simp [List.replicate_succ', Nat.add_comm]
  rw [collect, hval]
  simp only [Except.map]
  rw [hloop]

theorem c3_amended_witness :
    collect rawFix (some "5") (fun _ => false) 0 (fun _ _ => .error ()) =
      .ok ⟨(resolve cfgFix.time_format (some "5") (fun _ => false) 0).ptrStr,
           ⟨1, List.replicate 1
              (buildQuery cfgFix (resolve cfgFix.time_format (some "5") (fun _ => false) 0)),
            [], flatPages (fun _ => []) 0, true⟩⟩ :=
  c3_amended_abort_discards rawFix (some "5") (fun _ => false) 0 (fun _ _ => .error ())
    cfgFix 0 (fun _ => []) (by decide) (fun j hj => absurd hj (by omega)) rfl

/-- C4 counterexample: a configuration with an EMPTY `project_id` string
and an EMPTY `columns` list is accepted by validation, contradicting the
claim that acceptance requires non-empty name strings and a non-empty
column sequence. -/
theorem c4_empty_fields_accepted_counterexample :
    validate ⟨some (.vStr ""), some (.vStr "d"), some (.vStr "t"),
      some (.vList []), none, some (.vStr "ts"), none⟩ =
      .ok ⟨"", "d", "t", [], 3, "ts", "microseconds"⟩ := by
  decide


/-- C4 as amended: validation accepts exactly the raw configurations whose
five required attributes are present, whose `pointer_path` is truthy,
whose (defaulted) `max_batches` is a positive integer, whose three name
fields are strings and `columns` a list — emptiness of the strings or of
the list is NOT checked — and whose (defaulted) `time_format` is
`microseconds` or `timestamp`; a missing required attribute surfaces as
the missing-field error, and the `pointer_path` truthiness check precedes
the `max_batches` check (not the order stated in the specification). -/
theorem c4_amended_validate_characterisation :
    (∀ raw : RawConfig, (∃ cfg, validate raw = .ok cfg) ↔
      ∃ ps ds ts2 cl pp, raw.project_id = some (.vStr ps) ∧
        raw.dataset_name = some (.vStr ds) ∧ raw.table_name = some (.vStr ts2) ∧
        raw.columns = some (.vList cl) ∧ raw.pointer_path = some pp ∧
        pyTruthy pp = true ∧
        (∃ mb : Int, raw.max_batches.getD (.vInt 3) = .vInt mb ∧ 0 < mb) ∧
        (raw.time_format.getD (.vStr "microseconds") = .vStr "microseconds" ∨
         raw.time_format.getD (.vStr "microseconds") = .vStr "timestamp")) ∧
    validate ⟨some (.vStr "p"), some (.vStr "d"), some (.vStr "t"), some (.vList ["a"]),
      some (.vInt 0), some (.vStr ""), none⟩ = .error .pointerPathUnset ∧
    validate ⟨some (.vStr "p"), some (.vStr "d"), some (.vStr "t"), none,
      some (.vInt 2), some (.vStr "x"), none⟩ = .error .missingField := by
  refine ⟨?_, by decide, by decide⟩
  intro raw
  constructor
  · rintro ⟨cfg, h⟩
    rw [validate.eq_def] at h
    cases hp1 : raw.project_id with
    | none => rw [hp1] at h; simp at h
    | some pid =>
    rw [hp1] at h
    cases hp2 : raw.dataset_name with
    | none => rw [hp2] at h; simp at h
    | some dn =>
    rw [hp2] at h
    cases hp3 : raw.table_name with
    | none => rw [hp3] at h; simp at h
    | some tn =>
    rw [hp3] at h
    cases hp4 : raw.columns with
    | none => rw [hp4] at h; simp at h
    | some cols =>
    rw [hp4] at h
    cases hp5 : raw.pointer_path with
    | none => rw [hp5] at h; simp at h
    | some pp =>
    rw [hp5] at h
    simp only [] at h
    by_cases htr : pyTruthy pp
    rotate_left
    · rw [if_pos (by simpa using htr)] at h
      simp at h
    rw [if_neg (by simpa using htr)] at h
    cases hmb : raw.max_batches.getD (.vInt 3) with
    | vStr v => rw [hmb] at h; simp at h
    | vList v => rw [hmb] at h; simp at h
    | vInt mb =>
    rw [hmb] at h
    simp only [] at h
    by_cases hmbpos : mb ≤ 0
    · rw [if_pos hmbpos] at h
      simp at h
    rw [if_neg hmbpos] at h
    cases pid with
    | vInt v => simp at h
    | vList v => simp at h
    | vStr ps =>
    cases dn with
    | vInt v => simp at h
    | vList v => simp at h
    | vStr ds =>
    cases tn with
    | vInt v => simp at h
    | vList v => simp at h
    | vStr ts2 =>
    cases cols with
    | vStr v => simp at h
    | vInt v => simp at h
    | vList cl =>
    simp only [] at h
    by_cases htf : raw.time_format.getD (.vStr "microseconds") = .vStr "microseconds" ∨
        raw.time_format.getD (.vStr "microseconds") = .vStr "timestamp"
    rotate_left
    · rw [if_neg htf] at h
      simp at h
    exact ⟨ps, ds, ts2, cl, pp, rfl, rfl, rfl, rfl, rfl, by simpa using htr,
      ⟨mb, rfl, by omega⟩, htf⟩
  · rintro ⟨ps, ds, ts2, cl, pp, hp1, hp2, hp3, hp4, hp5, htr, ⟨mb, hmb, hmbpos⟩, htf⟩
    refine ⟨⟨ps, ds, ts2, cl, mb, pyRender pp,
      if raw.time_format.getD (.vStr "microseconds") = .vStr "microseconds"
      then "microseconds" else "timestamp"⟩, ?_⟩
    rcases htf with htf | htf <;>
      simp [validate.eq_def, hp1, hp2, hp3, hp4, hp5, hmb, htr, htf,
        show ¬ mb ≤ 0 from by omega]

end Grove